import Mathlib

/-!
Verification development for the firecrawl-fastapi-scraper job-orchestration
core.  The Python source (`app/main.py`, `app/database.py`) is shallowly
embedded: JSON-ish page payloads become an inductive field type, fallible
phases become explicit outcome values, and the stateful store update becomes
a pure function on a job record.
-/

/-! ## JSON field model for Firecrawl page payloads

A Python dict field can be missing, explicitly `None`, or a string.
`dict.get(key, "")` yields `""` when missing, `None` when null. -/

inductive JVal where
  | absent
  | null
  | str (s : String)
deriving DecidableEq, Repr

/-- Models `d.get(key, "")` for a string-valued field: the Python result is a
string or `None`, embedded as `Option String` (`none` = Python `None`). -/
def JVal.getD : JVal → Option String
  | .absent => some ""
  | .null => none
  | .str s => some s

structure PageMeta where
  sourceURL : JVal
  title : JVal
deriving DecidableEq, Repr

inductive MetaVal where
  | absent
  | null
  | obj (m : PageMeta)
deriving DecidableEq, Repr

/-- One page object from the Firecrawl `data` array. -/
structure Page where
  markdown : JVal
  metadata : MetaVal
deriving DecidableEq, Repr

/-- One row of the `crawl_results` table as created by `create_result`
(`page_url` and `page_title` are nullable columns). -/
structure ResultRow where
  page_url : Option String
  page_title : Option String
  content_snippet : String
deriving DecidableEq, Repr

/-- Python `str.lower()`, restricted to the per-character lowering that
`Char.toLower` performs. -/
def py_lower (s : String) : String := ⟨s.data.map Char.toLower⟩

/-- Python's substring test `needle in hay` on the underlying character
lists. -/
def is_substr : List Char → List Char → Bool
  | needle, [] => needle.isEmpty
  | needle, c :: t => needle.isPrefixOf (c :: t) || is_substr needle t

/-- The text body used for matching: `page.get("markdown", "")` when that
value is a string, `""` when the field is missing. -/
def page_text (p : Page) : String :=
  match p.markdown with
  | .str s => s
  | _ => ""

/-- `metadata.get("sourceURL", "")` after `metadata = page.get("metadata", {})`. -/
def meta_url (p : Page) : Option String :=
  match p.metadata with
  | .obj m => m.sourceURL.getD
  | _ => some ""

/-- `metadata.get("title", "")` after `metadata = page.get("metadata", {})`. -/
def meta_title (p : Page) : Option String :=
  match p.metadata with
  | .obj m => m.title.getD
  | _ => some ""

/-- The case-insensitive keyword test
`keyword.lower() in markdown_content.lower()` from
`extract_and_store_results`. -/
def page_matches (keyword : String) (p : Page) : Bool :=
  is_substr (py_lower keyword).data (py_lower (page_text p)).data

/-- The result row persisted for a matching page: url/title from metadata and
`content_snippet` equal to the whole markdown body. -/
def mk_row (p : Page) : ResultRow :=
  ⟨meta_url p, meta_title p, page_text p⟩

/-- The per-page body of the loop in `extract_and_store_results`
(`app/main.py` lines 532-555).  `none` models the per-page `try` block
raising (so the page is logged and skipped): this happens when
`metadata` is `None` (`metadata.get(...)` raises `AttributeError`) or when
`markdown` is `None` (`markdown_content.lower()` raises).  `some none` is a
clean evaluation without a keyword match; `some (some row)` is a match. -/
def extract_page (keyword : String) (p : Page) : Option (Option ResultRow) :=
  if p.metadata = MetaVal.null ∨ p.markdown = JVal.null then
    none
  else if page_matches keyword p then
    some (some (mk_row p))
  else
    some none

/-- `extract_and_store_results` (`app/main.py` lines 514-557): iterate the
crawled pages, persist a result row for each match, skip any page whose
processing raises. -/
def extract_and_store_results (crawled_data : List Page) (keyword : String) :
    List ResultRow :=
  match crawled_data with
  | [] => []
  | page :: rest =>
    match extract_page keyword page with
    | some (some row) => row :: extract_and_store_results rest keyword
    | _ => extract_and_store_results rest keyword

/-! ## Job store -/

/-- One row of the `crawl_jobs` table (`app/models.py`); timestamps are
abstracted to naturals. -/
structure Job where
  id : String
  input_url : String
  keyword : String
  status : String
  firecrawl_job_id : Option String
  error : Option String
  created_at : Nat
  completed_at : Option Nat
deriving DecidableEq, Repr

/-- `update_job_status` (`app/database.py` lines 205-242) applied to the
matched row.  `error` and `firecrawl_job_id` are written only when truthy
(Python `if error:` — so `None` and `""` are both skipped), and
`completed_at` is set to the current time exactly when the new status is
`completed` or `failed`. -/
def update_job_status (job : Job) (status : String) (error : Option String)
    (firecrawl_job_id : Option String) (now : Nat) : Job :=
  let j1 := { job with status := status }
  let j2 :=
    match error with
    | some e => if e = "" then j1 else { j1 with error := some e }
    | none => j1
  let j3 :=
    match firecrawl_job_id with
    | some f => if f = "" then j2 else { j2 with firecrawl_job_id := some f }
    | none => j2
  if status = "completed" ∨ status = "failed" then
    { j3 with completed_at := some now }
  else
    j3

/-! ## Claim C8 -/

/-- Claim C8: `update_job_status` is a partial update.  Only the supplied
fields (status, error, firecrawl_job_id) change; `id`, `input_url`,
`keyword` and `created_at` are never touched; an unsupplied `error` or
`firecrawl_job_id` stays unchanged; and `completed_at` is set to the current
time exactly when the new status is `completed` or `failed`, otherwise it is
left as it was. -/
theorem c8_update_job_status_partial (job : Job) (status : String)
    (error firecrawl_job_id : Option String) (now : Nat) :
    (update_job_status job status error firecrawl_job_id now).id = job.id ∧
    (update_job_status job status error firecrawl_job_id now).input_url = job.input_url ∧
    (update_job_status job status error firecrawl_job_id now).keyword = job.keyword ∧
    (update_job_status job status error firecrawl_job_id now).created_at = job.created_at ∧
    (update_job_status job status error firecrawl_job_id now).status = status ∧
    (update_job_status job status none firecrawl_job_id now).error = job.error ∧
    (update_job_status job status error none now).firecrawl_job_id = job.firecrawl_job_id ∧
    (update_job_status job status error firecrawl_job_id now).completed_at =
      (if status = "completed" ∨ status = "failed" then some now else job.completed_at) := by
  unfold update_job_status
  cases error with
  | none =>
    cases firecrawl_job_id with
    | none => by_cases h : status = "completed" ∨ status = "failed" <;> simp [h]
    | some f =>
      by_cases h : status = "completed" ∨ status = "failed" <;>
        by_cases hf : f = "" <;> simp [h, hf]
  | some e =>
    cases firecrawl_job_id with
    | none =>
      by_cases h : status = "completed" ∨ status = "failed" <;>
        by_cases he : e = "" <;> simp [h, he]
    | some f =>
      by_cases h : status = "completed" ∨ status = "failed" <;>
        by_cases he : e = "" <;> by_cases hf : f = "" <;> simp [h, he, hf]

/-! ## Claim C9 -/

/-- Claim C9: passing an empty-string `error` (or empty-string
`firecrawl_job_id`) to `update_job_status` behaves as if the field had not
been supplied: the store tests truthiness, not presence, so the stored field
is left unchanged. -/
theorem c9_empty_string_not_written (job : Job) (status : String)
    (error firecrawl_job_id : Option String) (now : Nat) :
    (update_job_status job status (some "") firecrawl_job_id now).error = job.error ∧
    (update_job_status job status error (some "") now).firecrawl_job_id =
      job.firecrawl_job_id := by
  unfold update_job_status
  constructor
  · cases firecrawl_job_id with
    | none => by_cases h : status = "completed" ∨ status = "failed" <;> simp [h]
    | some f =>
      by_cases h : status = "completed" ∨ status = "failed" <;>
        by_cases hf : f = "" <;> simp [h, hf]
  · cases error with
    | none => by_cases h : status = "completed" ∨ status = "failed" <;> simp [h]
    | some e =>
      by_cases h : status = "completed" ∨ status = "failed" <;>
        by_cases he : e = "" <;> simp [h, he]

/-! ## Claim C10 -/

/-- Claim C10: a page whose `markdown` field is present but null is skipped
entirely: lowercasing `None` raises, the exception is caught, no result row
is created for the page, and processing continues with the remaining
pages. -/
theorem c10_null_markdown_page_skipped (keyword : String) (p : Page)
    (rest : List Page) (h : p.markdown = JVal.null) :
    extract_page keyword p = none ∧
    extract_and_store_results (p :: rest) keyword =
      extract_and_store_results rest keyword := by
  have hp : extract_page keyword p = none := by
    unfold extract_page
    simp [h]
  exact ⟨hp, by rw [extract_and_store_results, hp]⟩

/-- Claim C10 witness: concrete null-markdown page, evaluated. -/
theorem c10_null_markdown_page_skipped_witness :
    extract_page "acme" ⟨JVal.null, MetaVal.absent⟩ = none ∧
    extract_and_store_results
        [⟨JVal.null, MetaVal.absent⟩, ⟨JVal.str "acme here", MetaVal.absent⟩] "acme" =
      extract_and_store_results [⟨JVal.str "acme here", MetaVal.absent⟩] "acme" :=
  c10_null_markdown_page_skipped "acme" ⟨JVal.null, MetaVal.absent⟩
    [⟨JVal.str "acme here", MetaVal.absent⟩] rfl

/-! ## Orchestrator (`process_crawl_job`, `app/main.py` lines 299-365)

The job store is treated as the reliable capability the spec describes, so a
status update always takes effect; the fallible phases (starting the remote
crawl, polling it, extracting/persisting results) are abstracted by an
environment recording each phase's outcome, where `exn` models the phase
raising an exception with the given description.  The orchestrator's
observable behaviour is the list of `update_job_status` calls it issues. -/

inductive Status where
  | pending
  | in_progress
  | completed
  | failed
deriving DecidableEq, Repr

/-- One `update_job_status` call issued by the orchestrator: the new status
plus the optional `error` and `firecrawl_job_id` arguments. -/
structure JobUpdate where
  status : Status
  error : Option String
  firecrawl_job_id : Option String
deriving DecidableEq, Repr

/-- Outcome of one fallible phase: a returned value or a raised exception
carrying its description `str(e)`. -/
inductive PhaseOutcome (α : Type) where
  | ok (val : α)
  | exn (msg : String)
deriving DecidableEq, Repr

/-- Outcomes of the three fallible phases of one `process_crawl_job` run:
`start` is what `start_firecrawl_job` returns (it returns `None` rather than
raising when all retries fail), `poll` is the
`(crawled_data, error_message)` pair from `poll_firecrawl_status`, and
`extract` is the result of `extract_and_store_results` (a `Unit`, or an
exception escaping it, e.g. from the database layer). -/
structure OrchEnv where
  start : PhaseOutcome (Option String)
  poll : PhaseOutcome (Option (List Page) × Option String)
  extract : PhaseOutcome Unit
deriving DecidableEq, Repr

def start_fail_err : String :=
  "Failed to start Firecrawl job after 3 retry attempts. Firecrawl service may be unavailable."

def poll_default_err : String :=
  "Failed to retrieve crawl results from Firecrawl"

/-- Python truthiness test `not crawled_data`: true for `None` and for the
empty list. -/
def is_falsy_data : Option (List Page) → Bool
  | none => true
  | some [] => true
  | some (_ :: _) => false

/-- `process_crawl_job` (`app/main.py` lines 299-365) as the sequence of
`update_job_status` calls it performs.  The trailing `except` block converts
any exception from a phase into a final failed update with the wrapped
message `"Internal error: " ++ str(e)`. -/
def process_crawl_job (env : OrchEnv) : List JobUpdate :=
  let u1 : JobUpdate := ⟨Status.in_progress, none, none⟩
  match env.start with
  | .exn m => [u1, ⟨Status.failed, some ("Internal error: " ++ m), none⟩]
  | .ok none => [u1, ⟨Status.failed, some start_fail_err, none⟩]
  | .ok (some fcid) =>
    let u2 : JobUpdate := ⟨Status.in_progress, none, some fcid⟩
    match env.poll with
    | .exn m => [u1, u2, ⟨Status.failed, some ("Internal error: " ++ m), none⟩]
    | .ok (crawled_data, error_message) =>
      if is_falsy_data crawled_data then
        [u1, u2, ⟨Status.failed, some (error_message.getD poll_default_err), none⟩]
      else
        match env.extract with
        | .exn m => [u1, u2, ⟨Status.failed, some ("Internal error: " ++ m), none⟩]
        | .ok _ => [u1, u2, ⟨Status.completed, none, none⟩]

/-- The exception description the orchestrator's `except` block observes in a
run, if any phase raised one. -/
def orch_exn_msg (env : OrchEnv) : Option String :=
  match env.start with
  | .exn m => some m
  | .ok none => none
  | .ok (some _) =>
    match env.poll with
    | .exn m => some m
    | .ok (crawled_data, _) =>
      if is_falsy_data crawled_data then none
      else
        match env.extract with
        | .exn m => some m
        | .ok _ => none

def is_terminal : Status → Bool
  | .completed => true
  | .failed => true
  | _ => false

/-- The statuses a job passes through: `pending` at creation, then every
status written by the orchestrator, in order. -/
def status_trace (env : OrchEnv) : List Status :=
  Status.pending :: (process_crawl_job env).map JobUpdate.status

def status_rank : Status → Nat
  | .pending => 0
  | .in_progress => 1
  | .completed => 2
  | .failed => 2

/-! ## Claim C1 -/

/-- Claim C1 counterexample: when a phase raises (here the start phase raises
`"boom"`), the orchestrator writes status failed with error
`"Internal error: boom"` — capital `I` — which is not of the form
`"internal error: <description>"`: the lowercase template is not even a
prefix or a substring of the written message. -/
theorem c1_counterexample :
    (process_crawl_job
        ⟨PhaseOutcome.exn "boom", PhaseOutcome.ok (none, none),
          PhaseOutcome.ok ()⟩).getLast? =
      some ⟨Status.failed, some "Internal error: boom", none⟩ ∧
    "internal error: ".data.isPrefixOf "Internal error: boom".data = false ∧
    is_substr "internal error: ".data "Internal error: boom".data = false := by
  refine ⟨?_, ?_, ?_⟩ <;> decide

/-- Claim C1 (amended): `process_crawl_job` never throws outward — it is a
total function of its environment — the job always ends in a terminal status
(completed or failed), and any exception raised during steps 1-5 is caught
at the orchestrator boundary and converted into a final failed update whose
error is the wrapped message `"Internal error: <description>"` (the code
capitalises the word Internal). -/
theorem c1_orchestrator_catches_all (env : OrchEnv) :
    (∃ u, (process_crawl_job env).getLast? = some u ∧ is_terminal u.status = true) ∧
    (∀ m, orch_exn_msg env = some m →
      (process_crawl_job env).getLast? =
        some ⟨Status.failed, some ("Internal error: " ++ m), none⟩) := by
  rcases env with ⟨s, p, e⟩
  cases s with
  | exn m => simp [process_crawl_job, orch_exn_msg, is_terminal]
  | ok o =>
    cases o with
    | none => simp [process_crawl_job, orch_exn_msg, is_terminal]
    | some fcid =>
      cases p with
      | exn m => simp [process_crawl_job, orch_exn_msg, is_terminal]
      | ok pr =>
        obtain ⟨data, errm⟩ := pr
        cases data with
        | none => simp [process_crawl_job, orch_exn_msg, is_terminal, is_falsy_data]
        | some l =>
          cases l with
          | nil => simp [process_crawl_job, orch_exn_msg, is_terminal, is_falsy_data]
          | cons a t =>
            cases e with
            | exn m =>
              simp [process_crawl_job, orch_exn_msg, is_terminal, is_falsy_data]
            | ok u =>
              simp [process_crawl_job, orch_exn_msg, is_terminal, is_falsy_data]

/-- Claim C1 witness: with the start phase raising `"boom"`, the run ends in
a failed update carrying the wrapped message. -/
theorem c1_orchestrator_catches_all_witness :
    (process_crawl_job
        ⟨PhaseOutcome.exn "boom", PhaseOutcome.ok (none, none),
          PhaseOutcome.ok ()⟩).getLast? =
      some ⟨Status.failed, some ("Internal error: " ++ "boom"), none⟩ :=
  (c1_orchestrator_catches_all _).2 "boom" rfl

/-! ## Claim C2 -/

/-- Claim C2: the job status sequence is a monotonic forward-only state
machine.  For every environment, the statuses written by the orchestrator
(prefixed by the initial `pending`) are non-decreasing in the order
pending < in_progress < terminal, no status before the last one is
terminal, and the run ends in a terminal status — so no backward
transitions occur, and once completed or failed nothing further is
written. -/
theorem c2_status_monotonic (env : OrchEnv) :
    List.Chain' (fun a b => status_rank a ≤ status_rank b) (status_trace env) ∧
    (status_trace env).dropLast.all (fun s => !(is_terminal s)) = true ∧
    (status_trace env).getLast?.map is_terminal = some true := by
  rcases env with ⟨s, p, e⟩
  cases s with
  | exn m => simp [status_trace, process_crawl_job, status_rank, is_terminal]
  | ok o =>
    cases o with
    | none => simp [status_trace, process_crawl_job, status_rank, is_terminal]
    | some fcid =>
      cases p with
      | exn m => simp [status_trace, process_crawl_job, status_rank, is_terminal]
      | ok pr =>
        obtain ⟨data, errm⟩ := pr
        cases data with
        | none =>
          simp [status_trace, process_crawl_job, status_rank, is_terminal,
            is_falsy_data]
        | some l =>
          cases l with
          | nil =>
            simp [status_trace, process_crawl_job, status_rank, is_terminal,
              is_falsy_data]
          | cons a t =>
            cases e with
            | exn m =>
              simp [status_trace, process_crawl_job, status_rank, is_terminal,
                is_falsy_data]
            | ok u =>
              simp [status_trace, process_crawl_job, status_rank, is_terminal,
                is_falsy_data]

/-! ## Start-job retrier (`start_firecrawl_job`, `app/main.py` lines 368-425)

The remote provider's start operation is abstracted by an environment giving
the outcome of each attempt.  The function returns the Python return value
together with the number of provider invocations made and the list of sleep
durations performed between attempts. -/

/-- Outcome of one `POST /v2/crawl` attempt. -/
inductive StartAttempt where
  | ok (jid : Option String)
  | httpErr (code : Nat)
  | connErr
  | otherErr
deriving DecidableEq, Repr

def is_start_success : StartAttempt → Bool
  | .ok _ => true
  | _ => false

/-- The `for attempt in range(max_retries)` loop, with `fuel` the number of
attempts still available.  An HTTP 200 returns `data.get("id")` at once;
any failure sleeps 2 seconds and retries unless this was the last attempt,
in which case `None` is returned.  Every exception inside the loop is
caught, so the translation is total. -/
def start_go (env : Nat → StartAttempt) (attempt : Nat) :
    Nat → Option String × Nat × List Nat
  | 0 => (none, 0, [])
  | Nat.succ remaining =>
    match env attempt with
    | .ok jid => (jid, 1, [])
    | _ =>
      if remaining = 0 then
        (none, 1, [])
      else
        let r := start_go env (attempt + 1) remaining
        (r.1, r.2.1 + 1, 2 :: r.2.2)

/-- `start_firecrawl_job(url, max_retries)`: result, number of provider
invocations, and sleeps performed. -/
def start_firecrawl_job (env : Nat → StartAttempt) (max_retries : Nat) :
    Option String × Nat × List Nat :=
  start_go env 0 max_retries

lemma start_go_succ_fail (env : Nat → StartAttempt) (attempt r : Nat)
    (hfail : is_start_success (env attempt) = false) :
    start_go env attempt (r + 1) =
      if r = 0 then
        (none, 1, [])
      else
        ((start_go env (attempt + 1) r).1,
          (start_go env (attempt + 1) r).2.1 + 1,
          2 :: (start_go env (attempt + 1) r).2.2) := by
  cases henv : env attempt with
  | ok jid => rw [henv] at hfail; simp [is_start_success] at hfail
  | httpErr code => simp only [start_go, henv]
  | connErr => simp only [start_go, henv]
  | otherErr => simp only [start_go, henv]

lemma start_go_all_fail (fuel : Nat) :
    ∀ (env : Nat → StartAttempt) (attempt : Nat),
      (∀ i, i < attempt + fuel → is_start_success (env i) = false) →
      start_go env attempt fuel = (none, fuel, List.replicate (fuel - 1) 2) := by
  induction fuel with
  | zero => intro env attempt _; rfl
  | succ r ih =>
    intro env attempt h
    have hfail : is_start_success (env attempt) = false :=
      h attempt (by omega)
    rw [start_go_succ_fail env attempt r hfail]
    cases r with
    | zero => rfl
    | succ s =>
      have hrec := ih env (attempt + 1) (fun i hi => h i (by omega))
      rw [if_neg (Nat.succ_ne_zero s), hrec]
      simp [List.replicate_succ]

/-! ## Claim C3 -/

/-- Claim C3: if no start attempt succeeds within `max_retries` attempts,
`start_firecrawl_job` returns `none` after invoking the provider exactly
`max_retries` times, sleeping a fixed 2 seconds between consecutive attempts
(`max_retries - 1` sleeps), without any exception propagating (the
translation is a total function); and the orchestrator then marks the job
failed with the start-failure error message. -/
theorem c3_start_retry_exhaustion (max_retries : Nat) (env : Nat → StartAttempt)
    (poll : PhaseOutcome (Option (List Page) × Option String))
    (ext : PhaseOutcome Unit)
    (h : ∀ i, i < max_retries → is_start_success (env i) = false) :
    start_firecrawl_job env max_retries =
      (none, max_retries, List.replicate (max_retries - 1) 2) ∧
    (process_crawl_job
        ⟨PhaseOutcome.ok (start_firecrawl_job env max_retries).1, poll,
          ext⟩).getLast? =
      some ⟨Status.failed, some start_fail_err, none⟩ := by
  have h1 : start_firecrawl_job env max_retries =
      (none, max_retries, List.replicate (max_retries - 1) 2) :=
    start_go_all_fail max_retries env 0 (fun i hi => h i (by omega))
  refine ⟨h1, ?_⟩
  rw [h1]
  simp [process_crawl_job]

/-- Claim C3 witness: three attempts, all connection errors. -/
theorem c3_start_retry_exhaustion_witness :
    start_firecrawl_job (fun _ => StartAttempt.connErr) 3 =
      (none, 3, List.replicate 2 2) ∧
    (process_crawl_job
        ⟨PhaseOutcome.ok (start_firecrawl_job (fun _ => StartAttempt.connErr) 3).1,
          PhaseOutcome.ok (none, none), PhaseOutcome.ok ()⟩).getLast? =
      some ⟨Status.failed, some start_fail_err, none⟩ :=
  c3_start_retry_exhaustion 3 (fun _ => StartAttempt.connErr)
    (PhaseOutcome.ok (none, none)) (PhaseOutcome.ok ()) (by decide)

/-! ## Poll loop (`poll_firecrawl_status`, `app/main.py` lines 428-511)

Each loop iteration observes the elapsed time at its timeout check and the
outcome of the status request.  The loop is driven by a finite trace of such
observations; `none` means the trace was exhausted with the loop still
running. -/

/-- Parsed body of a successful (HTTP 200) status response. -/
inductive RemoteStatus where
  | completed (data : List Page)
  | failedSt (err : Option String)
  | otherSt (s : String)
deriving DecidableEq, Repr

/-- Outcome of one `GET /v2/crawl/{id}` status request. -/
inductive PollOutcome where
  | ok (rs : RemoteStatus)
  | httpErr (code : Nat)
  | connErr (m : String)
  | otherErr (m : String)
deriving DecidableEq, Repr

/-- One poll-loop iteration: elapsed seconds at the timeout check, then the
request outcome. -/
structure PollObs where
  elapsed : Nat
  outcome : PollOutcome
deriving DecidableEq, Repr

def timeout_msg (t : Nat) : String :=
  "Crawl job timed out after " ++ toString t ++ " seconds"

/-- One iteration of the `while True` loop: either an exit with the returned
`(crawled_data, error_message)` pair, or a continuation carrying the new
consecutive-error counter (`retry_count`). -/
def poll_step (timeout retry_count : Nat) (obs : PollObs) :
    (Option (List Page) × Option String) ⊕ Nat :=
  if obs.elapsed > timeout then
    Sum.inl (none, some (timeout_msg timeout))
  else
    match obs.outcome with
    | .ok (.completed data) => Sum.inl (some data, none)
    | .ok (.failedSt err) =>
      Sum.inl (none, some ("Firecrawl error: " ++ err.getD "Firecrawl job failed"))
    | .ok (.otherSt _) => Sum.inr 0
    | .httpErr _ =>
      if retry_count + 1 ≥ 5 then
        Sum.inl (none, some "Firecrawl status check failed 5 times consecutively")
      else
        Sum.inr (retry_count + 1)
    | .connErr _ =>
      if retry_count + 1 ≥ 5 then
        Sum.inl (none, some "Firecrawl service unreachable")
      else
        Sum.inr (retry_count + 1)
    | .otherErr m =>
      if retry_count + 1 ≥ 5 then
        Sum.inl (none, some ("Polling error: " ++ m))
      else
        Sum.inr (retry_count + 1)

/-- `poll_firecrawl_status` run over a finite observation trace; the loop
starts with `retry_count = 0`. -/
def poll_firecrawl_status (timeout retry_count : Nat) :
    List PollObs → Option (Option (List Page) × Option String)
  | [] => none
  | obs :: rest =>
    match poll_step timeout retry_count obs with
    | Sum.inl r => some r
    | Sum.inr rc => poll_firecrawl_status timeout rc rest

/-- The consecutive-error counter after consuming a prefix of the trace, or
`none` if the loop already exited within that prefix. -/
def retry_after (timeout : Nat) : Nat → List PollObs → Option Nat
  | retry_count, [] => some retry_count
  | retry_count, obs :: rest =>
    match poll_step timeout retry_count obs with
    | Sum.inl _ => none
    | Sum.inr rc => retry_after timeout rc rest

lemma is_substr_nil_left (l : List Char) : is_substr [] l = true := by
  cases l with
  | nil => simp [is_substr]
  | cons c t => simp [is_substr]

lemma is_substr_sandwich (pre mid post : List Char) :
    is_substr mid (pre ++ (mid ++ post)) = true := by
  induction pre with
  | nil =>
    cases mid with
    | nil => simp [is_substr_nil_left]
    | cons m ms => simp [is_substr]
  | cons p ps ih => simp [is_substr, ih]

lemma poll_timeout_eventually :
    ∀ (k : Nat) (trace : List PollObs) (timeout retry_count : Nat)
      (hk : k < trace.length),
      (retry_after timeout retry_count (trace.take k)).isSome = true →
      (trace.get ⟨k, hk⟩).elapsed > timeout →
      poll_firecrawl_status timeout retry_count trace =
        some (none, some (timeout_msg timeout)) := by
  intro k
  induction k with
  | zero =>
    intro trace timeout retry_count hk _ hel
    cases trace with
    | nil => simp at hk
    | cons obs rest =>
      simp only [List.get] at hel
      simp [poll_firecrawl_status, poll_step, hel]
  | succ n ih =>
    intro trace timeout retry_count hk halive hel
    cases trace with
    | nil => simp at hk
    | cons obs rest =>
      rw [List.take_succ_cons] at halive
      cases hstep : poll_step timeout retry_count obs with
      | inl r => simp [retry_after, hstep] at halive
      | inr rc =>
        have halive2 : (retry_after timeout rc (rest.take n)).isSome = true := by
          simpa [retry_after, hstep] using halive
        have hk2 : n < rest.length := Nat.lt_of_succ_lt_succ (by simpa using hk)
        have hel2 : (rest.get ⟨n, hk2⟩).elapsed > timeout := by
          simpa using hel
        have := ih rest timeout rc hk2 halive2 hel2
        simp [poll_firecrawl_status, hstep, this]

/-! ## Claim C4 -/

/-- Claim C4: if the poll loop is still running at an iteration whose elapsed
time exceeds `overall_timeout` (so no terminal remote status and no other
exit was observed earlier), the loop returns
`(none, "Crawl job timed out after <timeout> seconds")` — a message
containing "timed out after <timeout>" — and the orchestrator then marks the
job failed with exactly that timeout-indicating error. -/
theorem c4_poll_timeout (timeout retry_count k : Nat) (trace : List PollObs)
    (fcid : String) (ext : PhaseOutcome Unit) (hk : k < trace.length)
    (halive : (retry_after timeout retry_count (trace.take k)).isSome = true)
    (hel : (trace.get ⟨k, hk⟩).elapsed > timeout) :
    poll_firecrawl_status timeout retry_count trace =
      some (none, some (timeout_msg timeout)) ∧
    is_substr ("timed out after " ++ toString timeout).data
      (timeout_msg timeout).data = true ∧
    (process_crawl_job
        ⟨PhaseOutcome.ok (some fcid),
          PhaseOutcome.ok (none, some (timeout_msg timeout)),
          ext⟩).getLast? =
      some ⟨Status.failed, some (timeout_msg timeout), none⟩ := by
  refine ⟨poll_timeout_eventually k trace timeout retry_count hk halive hel, ?_, ?_⟩
  · have hdecomp : (timeout_msg timeout).data =
        "Crawl job ".data ++
          (("timed out after " ++ toString timeout).data ++ " seconds".data) := by
      simp [timeout_msg, List.append_assoc]
    rw [hdecomp]
    exact is_substr_sandwich _ _ _
  · simp [process_crawl_job, is_falsy_data]

/-- Claim C4 witness: an in-progress poll followed by an iteration past a
10-second timeout. -/
theorem c4_poll_timeout_witness :
    poll_firecrawl_status 10 0
        [⟨3, PollOutcome.ok (RemoteStatus.otherSt "scraping")⟩,
          ⟨11, PollOutcome.connErr "refused"⟩] =
      some (none, some (timeout_msg 10)) ∧
    is_substr ("timed out after " ++ toString 10).data (timeout_msg 10).data =
      true ∧
    (process_crawl_job
        ⟨PhaseOutcome.ok (some "r1"),
          PhaseOutcome.ok (none, some (timeout_msg 10)),
          PhaseOutcome.ok ()⟩).getLast? =
      some ⟨Status.failed, some (timeout_msg 10), none⟩ :=
  c4_poll_timeout 10 0 1
    [⟨3, PollOutcome.ok (RemoteStatus.otherSt "scraping")⟩,
      ⟨11, PollOutcome.connErr "refused"⟩]
    "r1" (PhaseOutcome.ok ()) (by decide) (by decide) (by decide)

/-! ## Claim C5 -/

def is_error_outcome : PollOutcome → Bool
  | .httpErr _ => true
  | .connErr _ => true
  | .otherErr _ => true
  | .ok _ => false

def is_progress_outcome : PollOutcome → Bool
  | .ok (.otherSt _) => true
  | _ => false

/-- The error message the poll loop returns when the consecutive-error
ceiling is hit, by error kind. -/
def exhaust_msg : PollOutcome → String
  | .httpErr _ => "Firecrawl status check failed 5 times consecutively"
  | .connErr _ => "Firecrawl service unreachable"
  | .otherErr m => "Polling error: " ++ m
  | .ok _ => ""

/-- Claim C5: within the timeout, a transport error or non-success response
increments the consecutive-error counter — continuing with `retry_count + 1`
when the ceiling of 5 is not yet reached, and exiting with a
repeated-failure error exactly when it is reached — while a successful
in-progress response resets the counter to zero.  So interleaved successes
before the ceiling prevent the failure exit. -/
theorem c5_consecutive_error_counter (timeout retry_count : Nat)
    (obs : PollObs) (trace : List PollObs)
    (hel : ¬ obs.elapsed > timeout) :
    (is_error_outcome obs.outcome = true → retry_count + 1 < 5 →
      poll_firecrawl_status timeout retry_count (obs :: trace) =
        poll_firecrawl_status timeout (retry_count + 1) trace) ∧
    (is_error_outcome obs.outcome = true → 5 ≤ retry_count + 1 →
      poll_firecrawl_status timeout retry_count (obs :: trace) =
        some (none, some (exhaust_msg obs.outcome))) ∧
    (is_progress_outcome obs.outcome = true →
      poll_firecrawl_status timeout retry_count (obs :: trace) =
        poll_firecrawl_status timeout 0 trace) := by
  obtain ⟨el, oc⟩ := obs
  refine ⟨?_, ?_, ?_⟩
  · intro herr hlt
    cases oc with
    | ok rs => simp [is_error_outcome] at herr
    | httpErr code =>
      simp [poll_firecrawl_status, poll_step, hel, Nat.not_le.mpr hlt]
    | connErr m =>
      simp [poll_firecrawl_status, poll_step, hel, Nat.not_le.mpr hlt]
    | otherErr m =>
      simp [poll_firecrawl_status, poll_step, hel, Nat.not_le.mpr hlt]
  · intro herr hge
    cases oc with
    | ok rs => simp [is_error_outcome] at herr
    | httpErr code =>
      simp [poll_firecrawl_status, poll_step, hel, hge, exhaust_msg]
    | connErr m =>
      simp [poll_firecrawl_status, poll_step, hel, hge, exhaust_msg]
    | otherErr m =>
      simp [poll_firecrawl_status, poll_step, hel, hge, exhaust_msg]
  · intro hprog
    cases oc with
    | ok rs =>
      cases rs with
      | completed data => simp [is_progress_outcome] at hprog
      | failedSt err => simp [is_progress_outcome] at hprog
      | otherSt s => simp [poll_firecrawl_status, poll_step, hel]
    | httpErr code => simp [is_progress_outcome] at hprog
    | connErr m => simp [is_progress_outcome] at hprog
    | otherErr m => simp [is_progress_outcome] at hprog

/-- Claim C5 witness: a fourth consecutive error continues with counter 4, a
fifth exits with the repeated-failure error, and an in-progress success
resets the counter to zero. -/
theorem c5_consecutive_error_counter_witness :
    poll_firecrawl_status 300 3 [⟨10, PollOutcome.httpErr 500⟩] =
      poll_firecrawl_status 300 4 [] ∧
    poll_firecrawl_status 300 4 [⟨10, PollOutcome.httpErr 500⟩] =
      some (none, some (exhaust_msg (PollOutcome.httpErr 500))) ∧
    poll_firecrawl_status 300 2
        [⟨10, PollOutcome.ok (RemoteStatus.otherSt "scraping")⟩] =
      poll_firecrawl_status 300 0 [] :=
  ⟨(c5_consecutive_error_counter 300 3 ⟨10, PollOutcome.httpErr 500⟩ []
      (by decide)).1 rfl (by decide),
    (c5_consecutive_error_counter 300 4 ⟨10, PollOutcome.httpErr 500⟩ []
      (by decide)).2.1 rfl (by decide),
    (c5_consecutive_error_counter 300 2
        ⟨10, PollOutcome.ok (RemoteStatus.otherSt "scraping")⟩ []
      (by decide)).2.2 rfl⟩

/-! ## Claim C6 -/

/-- Claim C6: over pages that evaluate cleanly (markdown and metadata not
null), the extractor creates exactly one result row per page whose text body
contains the keyword case-insensitively — the rows are precisely the
matching pages in order, each with `page_url`/`page_title` copied from that
page's metadata and `content_snippet` equal to the entire text body, with no
de-duplication — so with exactly K matching pages among N, exactly K rows
are created. -/
theorem c6_extractor_exact_matches (keyword : String) (pages : List Page)
    (h : ∀ p ∈ pages, p.markdown ≠ JVal.null ∧ p.metadata ≠ MetaVal.null) :
    extract_and_store_results pages keyword =
      (pages.filter (page_matches keyword)).map mk_row ∧
    (extract_and_store_results pages keyword).length =
      pages.countP (page_matches keyword) := by
  have main : extract_and_store_results pages keyword =
      (pages.filter (page_matches keyword)).map mk_row := by
    induction pages with
    | nil => rfl
    | cons p rest ih =>
      have hp := h p (by simp)
      have hrest := ih (fun q hq => h q (by simp [hq]))
      have hclean : ¬ (p.metadata = MetaVal.null ∨ p.markdown = JVal.null) :=
        not_or.mpr ⟨hp.2, hp.1⟩
      by_cases hm : page_matches keyword p
      · have hep : extract_page keyword p = some (some (mk_row p)) := by
          rw [extract_page, if_neg hclean, if_pos hm]
        simp [extract_and_store_results, hep, List.filter_cons, hm, hrest]
      · have hep : extract_page keyword p = some none := by
          rw [extract_page, if_neg hclean, if_neg hm]
        simp [extract_and_store_results, hep, List.filter_cons, hm, hrest]
  refine ⟨main, ?_⟩
  rw [main]
  simp [List.countP_eq_length_filter]

/-- Claim C6 witness: three pages, exactly one matching (case-insensitively);
exactly one row is created, copying url, title and the whole body. -/
theorem c6_extractor_exact_matches_witness :
    extract_and_store_results
        [⟨JVal.str "Hello ACME corp", MetaVal.obj ⟨JVal.str "https://a", JVal.str "A"⟩⟩,
          ⟨JVal.str "nothing here", MetaVal.obj ⟨JVal.str "https://b", JVal.str "B"⟩⟩,
          ⟨JVal.absent, MetaVal.absent⟩] "acme" =
      [⟨some "https://a", some "A", "Hello ACME corp"⟩] ∧
    (extract_and_store_results
        [⟨JVal.str "Hello ACME corp", MetaVal.obj ⟨JVal.str "https://a", JVal.str "A"⟩⟩,
          ⟨JVal.str "nothing here", MetaVal.obj ⟨JVal.str "https://b", JVal.str "B"⟩⟩,
          ⟨JVal.absent, MetaVal.absent⟩] "acme").length = 1 := by
  have h := c6_extractor_exact_matches "acme"
    [⟨JVal.str "Hello ACME corp", MetaVal.obj ⟨JVal.str "https://a", JVal.str "A"⟩⟩,
      ⟨JVal.str "nothing here", MetaVal.obj ⟨JVal.str "https://b", JVal.str "B"⟩⟩,
      ⟨JVal.absent, MetaVal.absent⟩] (by decide)
  exact ⟨by rw [h.1]; decide, by rw [h.2]; decide⟩

/-! ## Claim C7 -/

/-- Claim C7 counterexample: a page whose metadata block is missing but whose
markdown contains the keyword is NOT treated as having empty text — it
produces a match (with url and title defaulted to `""`) even though the
keyword is non-empty, contradicting the claim that a page missing a markdown
field or a metadata block produces no match when the keyword is
non-empty. -/
theorem c7_counterexample :
    extract_and_store_results [⟨JVal.str "Welcome to ACME", MetaVal.absent⟩]
        "acme" =
      [⟨some "", some "", "Welcome to ACME"⟩] ∧
    "acme" ≠ "" :=
  ⟨by decide, by decide⟩

/-- Claim C7 (amended): a page missing its markdown field is treated as
having empty text and produces no match when the keyword is non-empty; a
page missing its metadata block defaults `page_url`/`page_title` to `""` but
is still matched on its markdown body; and no page's processing outcome
aborts the processing of subsequent pages — the extractor's output is always
that page's rows followed by the rows of the rest of the batch. -/
theorem c7_missing_fields_defaulted (keyword : String) (p : Page)
    (rest : List Page) :
    (p.markdown = JVal.absent → keyword ≠ "" →
      extract_and_store_results (p :: rest) keyword =
        extract_and_store_results rest keyword) ∧
    (∀ s, p.metadata = MetaVal.absent → p.markdown = JVal.str s →
      page_matches keyword p = true →
      extract_and_store_results (p :: rest) keyword =
        ⟨some "", some "", s⟩ :: extract_and_store_results rest keyword) ∧
    (∃ rows, extract_and_store_results (p :: rest) keyword =
      rows ++ extract_and_store_results rest keyword) := by
  refine ⟨?_, ?_, ?_⟩
  · intro hmd hkw
    have hpm : page_matches keyword p = false := by
      rcases keyword with ⟨d⟩
      cases d with
      | nil => exact absurd rfl hkw
      | cons c cs => simp [page_matches, page_text, hmd, py_lower, is_substr]
    by_cases hc : p.metadata = MetaVal.null ∨ p.markdown = JVal.null
    · have hep : extract_page keyword p = none := by
        rw [extract_page, if_pos hc]
      simp [extract_and_store_results, hep]
    · have hep : extract_page keyword p = some none := by
        rw [extract_page, if_neg hc, if_neg (by simp [hpm])]
      simp [extract_and_store_results, hep]
  · intro s hmeta hmdd hpm
    have hc : ¬ (p.metadata = MetaVal.null ∨ p.markdown = JVal.null) := by
      simp [hmeta, hmdd]
    have hep : extract_page keyword p = some (some (mk_row p)) := by
      rw [extract_page, if_neg hc, if_pos hpm]
    have hrow : mk_row p = ⟨some "", some "", s⟩ := by
      simp [mk_row, meta_url, meta_title, page_text, hmeta, hmdd]
    simp [extract_and_store_results, hep, hrow]
  · cases hep : extract_page keyword p with
    | none => exact ⟨[], by simp [extract_and_store_results, hep]⟩
    | some o =>
      cases o with
      | none => exact ⟨[], by simp [extract_and_store_results, hep]⟩
      | some row => exact ⟨[row], by simp [extract_and_store_results, hep]⟩

/-- Claim C7 witness: a page missing both fields yields nothing and the batch
continues; a page missing only metadata but matching yields a row with
defaulted url and title. -/
theorem c7_missing_fields_defaulted_witness :
    extract_and_store_results [⟨JVal.absent, MetaVal.absent⟩] "acme" =
      extract_and_store_results [] "acme" ∧
    extract_and_store_results [⟨JVal.str "ACME rocks", MetaVal.absent⟩] "acme" =
      ⟨some "", some "", "ACME rocks"⟩ ::
        extract_and_store_results [] "acme" :=
  ⟨(c7_missing_fields_defaulted "acme" ⟨JVal.absent, MetaVal.absent⟩ []).1 rfl
      (by decide),
    (c7_missing_fields_defaulted "acme" ⟨JVal.str "ACME rocks", MetaVal.absent⟩
        []).2.1 "ACME rocks" rfl rfl (by decide)⟩
